import Mathlib

/-!
Verification of the firefly-swarm optimizer in
`src/src/algorithms/firefly/mod.rs` (struct `FireflySwarm`, functions
`FireflySwarm::initialize`, `FireflySwarm::is_better_than_minimum`,
`FireflySwarm::perform_iteration`, and `perform_firefly_swarm_optimization`).

Modelling choices:
* Objective values (`f64` in the source) are modelled as `Int`.  Every claim
  treated here concerns only order comparisons (`<` on values, the
  `total_cmp`-based descending sort), never float arithmetic, and `Int` is a
  faithful stand-in for the total order that `total_cmp` imposes.
* Positions (`Vec<f64>`) are modelled as `List Int`; their numeric content is
  never computed with, only carried around.
* `Firefly::move_towards` lives in `individual_firefly.rs`, which is not part
  of the sources; all developments are parameterised over an arbitrary
  movement function `move_fn : Firefly → Firefly → Firefly` (absorbing the
  `&mut problem` and `&FireflyOptions` arguments of the original, which are
  constant over a run).  The theorems therefore hold for every possible
  movement rule, in particular for the spec's attraction rule.
* The random generators (`rand_pcg::Pcg64Mcg` for per-firefly seed bytes,
  `UniformRNG` from the absent `rng.rs` for initial positions) are external
  deterministic byte/value streams; they are modelled as explicit stream
  functions `byteStream : Nat → Nat` (n-th sampled `u8`) and
  `posStream : Nat → Int` (n-th sampled in-bounds coordinate), consumed
  sequentially exactly as the source consumes the generators.
* The objective oracle `BBOBProblem::evaluate` is a pure function
  `ev : List Int → Int` (the spec declares evaluation side-effect-free and
  deterministic for a fixed position).
-/

namespace FireflyOpt

/-- Modelled from the spec: the `Firefly` agent of the absent
`individual_firefly.rs` — a candidate position, its cached objective value,
and the state of its private jitter RNG (here: the 16 seed bytes it was
constructed from, which fully determine that private stream). -/
structure Firefly where
  position : List Int
  objective_function_value : Int
  rngSeed : List Nat
deriving DecidableEq

/-- Structure `PointAndValue` from `mod.rs`: a position together with its value. -/
structure PointAndValue where
  position : List Int
  value : Int
deriving DecidableEq

/-- Structure `IterationResult` from `mod.rs`. -/
structure IterationResult where
  new_global_minimum : Bool
deriving DecidableEq

/-- The fields of `FireflyOptions` (from `options.rs`) that the swarm logic
reads.  The two 16-byte seeds are represented by the explicit streams the
generators they seed produce, and the three `f64` coefficients only feed the
abstract movement function. -/
structure FireflyOptions where
  swarm_size : Nat
  maximum_iterations : Nat
  stuck_run_iterations_count : Nat
deriving DecidableEq

/-- Modelled from the spec: `Minimum` from the absent `algorithms/common.rs`,
the (best value, best position) result record. -/
structure Minimum where
  value : Int
  position : List Int
deriving DecidableEq

/-- The mutable state of `FireflySwarm` (the `problem` and `options` fields
are carried as parameters instead, being read-only for the whole run). -/
structure FireflySwarm where
  best_solution : Option PointAndValue
  fireflies : List Firefly
deriving DecidableEq

/-- Function `FireflySwarm::is_better_than_minimum`, expressed over the
`best_solution` field directly: true when no best exists yet or the value is
strictly smaller than the stored best. -/
def betterThanMinimumOpt (best : Option PointAndValue) (value : Int) : Bool :=
  match best with
  | none => true
  | some b => decide (value < b.value)

/-- Method `FireflySwarm::is_better_than_minimum`. -/
def FireflySwarm.isBetterThanMinimum (s : FireflySwarm) (value : Int) : Bool :=
  betterThanMinimumOpt s.best_solution value

/-- The descending-by-objective-value order used by both
`sort_unstable_by` calls in `mod.rs` (comparator
`second.objective_function_value.total_cmp(&first...)`): larger values first,
the brightest (smallest) firefly last. -/
def fireflyDescOrder (a b : Firefly) : Prop :=
  b.objective_function_value ≤ a.objective_function_value

instance : DecidableRel fireflyDescOrder := fun a b =>
  inferInstanceAs (Decidable (_ ≤ _))

instance : IsTotal Firefly fireflyDescOrder :=
  ⟨fun a b => (le_total b.objective_function_value a.objective_function_value)⟩

instance : IsTrans Firefly fireflyDescOrder :=
  ⟨fun _ _ _ hab hbc => le_trans hbc hab⟩

/-- The `sort_unstable_by` step: sort the swarm descending by objective
value (brightest last). -/
def sortSwarm (l : List Firefly) : List Firefly :=
  List.insertionSort fireflyDescOrder l

section SwarmLogic

variable (move_fn : Firefly → Firefly → Firefly)

/-- One comparison of the inner loop of `perform_iteration`: if the candidate
is strictly brighter (strictly smaller objective value) than the working
copy's current value, the working copy moves towards it. -/
def attractStep (cur candidate : Firefly) : Firefly :=
  if candidate.objective_function_value < cur.objective_function_value then
    move_fn cur candidate
  else
    cur

/-- The full inner loop of `perform_iteration` for one working copy: fold
`attractStep` over the candidate fireflies in order, compounding movements. -/
def attractPass (f : Firefly) (candidates : List Firefly) : Firefly :=
  candidates.foldl (attractStep move_fn) f

/-- The new generation built by `perform_iteration` before the best-solution
bookkeeping: the firefly at index `i` of the original, pre-iteration snapshot
is cloned and attracted by the snapshot's suffix after index `i`
(`self.fireflies.iter().skip(main_firefly_index + 1)`). -/
def newGeneration : List Firefly → List Firefly
  | [] => []
  | f :: rest => attractPass move_fn f rest :: newGeneration rest

/-- The body of `perform_iteration`'s outer loop: walks the pre-iteration
snapshot, produces each moved working copy, and threads the best-solution
option and the `new_global_minimum` flag through in index order.  Returns
(new generation before sorting, final best, flag). -/
def iterLoop :
    List Firefly → Option PointAndValue → Bool →
      List Firefly × Option PointAndValue × Bool
  | [], best, flag => ([], best, flag)
  | f :: rest, best, flag =>
    let nf := attractPass move_fn f rest
    let bf :=
      if betterThanMinimumOpt best nf.objective_function_value then
        (some ⟨nf.position, nf.objective_function_value⟩, true)
      else
        (best, flag)
    let out := iterLoop rest bf.1 bf.2
    (nf :: out.1, out.2)

/-- Method `FireflySwarm::perform_iteration`: build the next generation from the
pre-iteration snapshot, update the best solution per firefly, re-sort
descending, and report whether a new global minimum was found. -/
def performIteration (s : FireflySwarm) : FireflySwarm × IterationResult :=
  let out := iterLoop move_fn s.fireflies s.best_solution false
  (⟨out.2.1, sortSwarm out.1⟩, ⟨out.2.2⟩)

/-- The two `assert_eq!` conditions of `perform_iteration`: the swarm has the
configured size on entry, and the freshly built generation has the configured
size before it replaces the swarm. -/
def performIterationAsserts (opts : FireflyOptions) (s : FireflySwarm) : Prop :=
  s.fireflies.length = opts.swarm_size ∧
    (newGeneration move_fn s.fireflies).length = opts.swarm_size

/-- Iterating `perform_iteration` `n` times (the states visited by the run
driver). -/
def iterateSwarm (s : FireflySwarm) : Nat → FireflySwarm
  | 0 => s
  | n + 1 => iterateSwarm (performIteration move_fn s).1 n

end SwarmLogic

section Initialization

variable (byteStream : Nat → Nat) (posStream : Nat → Int)
variable (ev : List Int → Int) (dims : Nat)

/-- The firefly-construction loop of `FireflySwarm::initialize`: for each of
the `swarm_size` fireflies, first draw 16 seed bytes from the (sequentially
consumed) firefly-seed generator, then draw `input_dimensions` in-bounds
coordinates from the (sequentially consumed) position sampler, and cache the
oracle's value at that position (`Firefly::new` evaluates the problem, per
the spec's cached-value invariant).  `bc` and `pc` are the positions reached
so far in the two streams. -/
def generateFireflies : Nat → Nat → Nat → List Firefly
  | _, _, 0 => []
  | bc, pc, n + 1 =>
    let seed := (List.range 16).map fun k => byteStream (bc + k)
    let pos := (List.range dims).map fun k => posStream (pc + k)
    ⟨pos, ev pos, seed⟩ :: generateFireflies (bc + 16) (pc + dims) n

/-- Constructor `FireflySwarm::initialize`: generate `swarm_size` fireflies, sort them
descending by objective value, and start with no best solution. -/
def initSwarm (opts : FireflyOptions) : FireflySwarm :=
  ⟨none, sortSwarm (generateFireflies byteStream posStream ev dims 0 0 opts.swarm_size)⟩

/-- The sub-seed the derivation scheme assigns to agent index `i`: bytes
`16*i .. 16*i+15` of the top-level seed generator's output stream — a fixed
deterministic function of the stream (hence of the top-level seed) and the
index alone. -/
def subSeedBytes (i : Nat) : List Nat :=
  (List.range 16).map fun k => byteStream (16 * i + k)

end Initialization

section Driver

variable (move_fn : Firefly → Firefly → Firefly)

/-- The iteration loop of `perform_firefly_swarm_optimization`: run up to
`fuel` iterations, resetting the stagnation counter on improvement and
incrementing it otherwise, and breaking as soon as it reaches
`stuck_run_iterations_count`.  Returns the final swarm state and the number
of `perform_iteration` calls made. -/
def runLoop (opts : FireflyOptions) :
    Nat → FireflySwarm → Nat → FireflySwarm × Nat
  | 0, s, _ => (s, 0)
  | fuel + 1, s, since =>
    let out := performIteration move_fn s
    let since' := if out.2.new_global_minimum then 0 else since + 1
    if opts.stuck_run_iterations_count ≤ since' then
      (out.1, 1)
    else
      let rest := runLoop opts fuel out.1 since'
      (rest.1, rest.2 + 1)

/-- The error message of the `miette!` failure in
`perform_firefly_swarm_optimization`. -/
def invalidRunMessage : String :=
  "Invalid run: no best solution at all?!"

end Driver

section FullRun

variable (byteStream : Nat → Nat) (posStream : Nat → Int)
variable (ev : List Int → Int) (dims : Nat)
variable (move_fn : Firefly → Firefly → Firefly)

/-- The final swarm state of `perform_firefly_swarm_optimization`'s loop. -/
def finalSwarmState (opts : FireflyOptions) : FireflySwarm :=
  (runLoop move_fn opts opts.maximum_iterations
    (initSwarm byteStream posStream ev dims opts) 0).1

/-- Function `perform_firefly_swarm_optimization`: initialize, loop with the
stagnation cutoff, then either surface the run-invalid error (no best
solution) or return the best value and position. -/
def performFireflySwarmOptimization (opts : FireflyOptions) :
    Except String Minimum :=
  match (finalSwarmState byteStream posStream ev dims move_fn opts).best_solution with
  | none => Except.error invalidRunMessage
  | some b => Except.ok ⟨b.value, b.position⟩

end FullRun

/-! Basic structural lemmas about the swarm operations. -/

theorem sortSwarm_sorted (l : List Firefly) :
    List.Sorted fireflyDescOrder (sortSwarm l) :=
  List.sorted_insertionSort fireflyDescOrder l

theorem sortSwarm_length (l : List Firefly) :
    (sortSwarm l).length = l.length :=
  List.length_insertionSort fireflyDescOrder l

theorem newGeneration_length (m : Firefly → Firefly → Firefly) :
    ∀ l : List Firefly, (newGeneration m l).length = l.length
  | [] => rfl
  | _ :: rest => by
    simp [newGeneration, newGeneration_length m rest]

theorem iterLoop_fst (m : Firefly → Firefly → Firefly) :
    ∀ (l : List Firefly) (best : Option PointAndValue) (flag : Bool),
      (iterLoop m l best flag).1 = newGeneration m l
  | [], _, _ => rfl
  | f :: rest, best, flag => by
    simp only [iterLoop, newGeneration]
    by_cases h :
        betterThanMinimumOpt best
          (attractPass m f rest).objective_function_value <;>
      simp [h, iterLoop_fst m rest]

theorem iterLoop_flag_mono (m : Firefly → Firefly → Firefly) :
    ∀ (l : List Firefly) (best : Option PointAndValue),
      (iterLoop m l best true).2.2 = true
  | [], _ => rfl
  | f :: rest, best => by
    simp only [iterLoop]
    by_cases h :
        betterThanMinimumOpt best
          (attractPass m f rest).objective_function_value <;>
      simp [h, iterLoop_flag_mono m rest]

theorem betterThanMinimumOpt_some_iff (b : PointAndValue) (v : Int) :
    betterThanMinimumOpt (some b) v = true ↔ v < b.value := by
  simp [betterThanMinimumOpt]

theorem iterLoop_best_mono (m : Firefly → Firefly → Firefly) :
    ∀ (l : List Firefly) (flag : Bool) (b : PointAndValue),
      ∃ b' : PointAndValue,
        (iterLoop m l (some b) flag).2.1 = some b' ∧ b'.value ≤ b.value
  | [], _, b => ⟨b, rfl, le_refl _⟩
  | f :: rest, flag, b => by
    simp only [iterLoop]
    by_cases h :
        betterThanMinimumOpt (some b)
          (attractPass m f rest).objective_function_value
    · rw [betterThanMinimumOpt_some_iff] at h
      obtain ⟨b', hb', hle⟩ :=
        iterLoop_best_mono m rest true
          ⟨(attractPass m f rest).position,
            (attractPass m f rest).objective_function_value⟩
      exact ⟨b', by simp [h.le.trans_lt, hb', betterThanMinimumOpt_some_iff, h],
        hle.trans h.le⟩
    · obtain ⟨b', hb', hle⟩ := iterLoop_best_mono m rest flag b
      exact ⟨b', by simp [h, hb'], hle⟩

theorem iterLoop_best_isSome (m : Firefly → Firefly → Firefly) :
    ∀ (l : List Firefly) (best : Option PointAndValue) (flag : Bool),
      l ≠ [] ∨ best.isSome = true →
        ((iterLoop m l best flag).2.1).isSome = true
  | [], best, flag, h => by
    cases h with
    | inl h => exact absurd rfl h
    | inr h => simpa [iterLoop] using h
  | f :: rest, best, flag, _ => by
    simp only [iterLoop]
    by_cases h :
        betterThanMinimumOpt best
          (attractPass m f rest).objective_function_value
    · simpa [h] using
        iterLoop_best_isSome m rest
          (some ⟨(attractPass m f rest).position,
            (attractPass m f rest).objective_function_value⟩)
          true (Or.inr rfl)
    · cases hb : best with
      | none => simp [betterThanMinimumOpt, hb] at h
      | some b =>
        rw [hb] at h
        simpa [h] using
          iterLoop_best_isSome m rest (some b) flag (Or.inr rfl)

theorem performIteration_fireflies (m : Firefly → Firefly → Firefly)
    (s : FireflySwarm) :
    (performIteration m s).1.fireflies =
      sortSwarm (newGeneration m s.fireflies) := by
  simp [performIteration, iterLoop_fst]

theorem performIteration_length (m : Firefly → Firefly → Firefly)
    (s : FireflySwarm) :
    (performIteration m s).1.fireflies.length = s.fireflies.length := by
  rw [performIteration_fireflies, sortSwarm_length, newGeneration_length]

theorem iterateSwarm_length (m : Firefly → Firefly → Firefly)
    (s : FireflySwarm) :
    ∀ n : Nat, (iterateSwarm m s n).fireflies.length = s.fireflies.length
  | 0 => rfl
  | n + 1 => by
    rw [iterateSwarm,
      iterateSwarm_length m (performIteration m s).1 n,
      performIteration_length]

theorem generateFireflies_length (bS : Nat → Nat) (pS : Nat → Int)
    (ev : List Int → Int) (dims : Nat) :
    ∀ (n bc pc : Nat), (generateFireflies bS pS ev dims bc pc n).length = n
  | 0, _, _ => rfl
  | n + 1, bc, pc => by
    simp [generateFireflies,
      generateFireflies_length bS pS ev dims n (bc + 16) (pc + dims)]

theorem initSwarm_length (bS : Nat → Nat) (pS : Nat → Int)
    (ev : List Int → Int) (dims : Nat) (opts : FireflyOptions) :
    (initSwarm bS pS ev dims opts).fireflies.length = opts.swarm_size := by
  rw [initSwarm, sortSwarm_length, generateFireflies_length]

/-! Monotonicity of the stored best solution. -/

theorem performIteration_best_mono (m : Firefly → Firefly → Firefly)
    (s : FireflySwarm) (b : PointAndValue)
    (hb : s.best_solution = some b) :
    ∃ b' : PointAndValue,
      (performIteration m s).1.best_solution = some b' ∧
        b'.value ≤ b.value := by
  obtain ⟨b', hb', hle⟩ := iterLoop_best_mono m s.fireflies false b
  exact ⟨b', by simp [performIteration, hb, hb'], hle⟩

theorem iterateSwarm_best_mono (m : Firefly → Firefly → Firefly) :
    ∀ (n : Nat) (s : FireflySwarm) (b : PointAndValue),
      s.best_solution = some b →
        ∃ b' : PointAndValue,
          (iterateSwarm m s n).best_solution = some b' ∧ b'.value ≤ b.value
  | 0, s, b, hb => ⟨b, hb, le_refl _⟩
  | n + 1, s, b, hb => by
    obtain ⟨b₁, hb₁, hle₁⟩ := performIteration_best_mono m s b hb
    obtain ⟨b', hb', hle'⟩ :=
      iterateSwarm_best_mono m n (performIteration m s).1 b₁ hb₁
    exact ⟨b', hb', hle'.trans hle₁⟩

theorem performIteration_best_isSome (m : Firefly → Firefly → Firefly)
    (s : FireflySwarm)
    (h : s.fireflies ≠ [] ∨ s.best_solution.isSome = true) :
    ((performIteration m s).1.best_solution).isSome = true := by
  simpa [performIteration] using
    iterLoop_best_isSome m s.fireflies s.best_solution false h

theorem iterateSwarm_best_isSome (m : Firefly → Firefly → Firefly) :
    ∀ (n : Nat) (s : FireflySwarm),
      s.best_solution.isSome = true →
        ((iterateSwarm m s n).best_solution).isSome = true
  | 0, _, h => h
  | n + 1, s, h =>
    iterateSwarm_best_isSome m n (performIteration m s).1
      (performIteration_best_isSome m s (Or.inr h))

theorem iterateSwarm_best_isSome_of_pos (m : Firefly → Firefly → Firefly)
    (n : Nat) (s : FireflySwarm) (hf : s.fireflies ≠ [])
    (hn : 1 ≤ n) :
    ((iterateSwarm m s n).best_solution).isSome = true := by
  cases n with
  | zero => exact absurd hn (by simp)
  | succ k =>
    exact iterateSwarm_best_isSome m k (performIteration m s).1
      (performIteration_best_isSome m s (Or.inl hf))

/-! The run driver's loop: call count and final state. -/

theorem runLoop_calls_le (m : Firefly → Firefly → Firefly)
    (opts : FireflyOptions) :
    ∀ (fuel : Nat) (s : FireflySwarm) (since : Nat),
      (runLoop m opts fuel s since).2 ≤ fuel
  | 0, _, _ => le_refl _
  | fuel + 1, s, since => by
    simp only [runLoop]
    by_cases h :
        opts.stuck_run_iterations_count ≤
          (if (performIteration m s).2.new_global_minimum then 0
            else since + 1)
    · simp [h]
    · simpa [h] using
        Nat.succ_le_succ
          (runLoop_calls_le m opts fuel (performIteration m s).1 _)

theorem runLoop_calls_pos (m : Firefly → Firefly → Firefly)
    (opts : FireflyOptions) (fuel : Nat) (s : FireflySwarm) (since : Nat)
    (h : 1 ≤ fuel) : 1 ≤ (runLoop m opts fuel s since).2 := by
  cases fuel with
  | zero => exact absurd h (by simp)
  | succ k =>
    simp only [runLoop]
    by_cases hc :
        opts.stuck_run_iterations_count ≤
          (if (performIteration m s).2.new_global_minimum then 0
            else since + 1) <;>
      simp [hc]

theorem runLoop_state_eq (m : Firefly → Firefly → Firefly)
    (opts : FireflyOptions) :
    ∀ (fuel : Nat) (s : FireflySwarm) (since : Nat),
      (runLoop m opts fuel s since).1 =
        iterateSwarm m s (runLoop m opts fuel s since).2
  | 0, _, _ => rfl
  | fuel + 1, s, since => by
    simp only [runLoop]
    by_cases h :
        opts.stuck_run_iterations_count ≤
          (if (performIteration m s).2.new_global_minimum then 0
            else since + 1)
    · simp [h, iterateSwarm]
    · simpa [h, iterateSwarm] using
        runLoop_state_eq m opts fuel (performIteration m s).1 _

/-! Fixpoint states (used for the degenerate swarm sizes). -/

theorem runLoop_fix_state (m : Firefly → Firefly → Firefly)
    (opts : FireflyOptions) (s : FireflySwarm)
    (hfix : performIteration m s = (s, ⟨false⟩)) :
    ∀ (fuel since : Nat), (runLoop m opts fuel s since).1 = s
  | 0, _ => rfl
  | fuel + 1, since => by
    simp only [runLoop, hfix]
    by_cases h : opts.stuck_run_iterations_count ≤ since + 1 <;>
      simp [h, runLoop_fix_state m opts s hfix fuel (since + 1)]

theorem runLoop_fix_calls (m : Firefly → Firefly → Firefly)
    (opts : FireflyOptions) (s : FireflySwarm)
    (hfix : performIteration m s = (s, ⟨false⟩)) :
    ∀ (fuel since : Nat), since < opts.stuck_run_iterations_count →
      (runLoop m opts fuel s since).2 =
        min fuel (opts.stuck_run_iterations_count - since)
  | 0, since, _ => by simp [runLoop]
  | fuel + 1, since, hlt => by
    simp only [runLoop, hfix]
    by_cases h : opts.stuck_run_iterations_count ≤ since + 1
    · have : (1 : Nat) = min (fuel + 1) (opts.stuck_run_iterations_count - since) := by
        omega
      simpa [h] using this
    · have hrec :=
        runLoop_fix_calls m opts s hfix fuel (since + 1) (by omega)
      have : min fuel (opts.stuck_run_iterations_count - (since + 1)) + 1 =
          min (fuel + 1) (opts.stuck_run_iterations_count - since) := by
        omega
      simpa [h, hrec] using this

/-! The stopping policy, stated independently from the spec's words, and the
refinement lemma connecting it to the driver's loop. -/

/-- The `new_global_minimum` flags of the first `n` iterations from state
`s`, in order. -/
def iterationFlags (m : Firefly → Firefly → Firefly) (s : FireflySwarm) :
    Nat → List Bool
  | 0 => []
  | n + 1 =>
    (performIteration m s).2.new_global_minimum ::
      iterationFlags m (performIteration m s).1 n

/-- Modelled from the spec: the run driver's stopping-policy state machine
(spec section 4.5) as a function of the iteration-outcome flags alone —
after each iteration, reset the stagnation counter to 0 on a new best and
increment it otherwise, and stop as soon as it reaches
`stuck_run_iterations_count` (the available-flags length plays the role of
the `maximum_iterations` bound).  Returns how many iterations are run. -/
def specStopCalls (stuck : Nat) : List Bool → Nat → Nat
  | [], _ => 0
  | f :: rest, since =>
    let since' := if f then 0 else since + 1
    if stuck ≤ since' then 1 else specStopCalls stuck rest since' + 1

theorem runLoop_calls_eq_spec (m : Firefly → Firefly → Firefly)
    (opts : FireflyOptions) :
    ∀ (fuel : Nat) (s : FireflySwarm) (since : Nat),
      (runLoop m opts fuel s since).2 =
        specStopCalls opts.stuck_run_iterations_count
          (iterationFlags m s fuel) since
  | 0, _, _ => rfl
  | fuel + 1, s, since => by
    simp only [runLoop, iterationFlags, specStopCalls]
    by_cases h :
        opts.stuck_run_iterations_count ≤
          (if (performIteration m s).2.new_global_minimum then 0
            else since + 1) <;>
      simp [h, runLoop_calls_eq_spec m opts fuel (performIteration m s).1]

/-! Index-wise characterization of the new generation (claim C2). -/

theorem newGeneration_get? (m : Firefly → Firefly → Firefly) :
    ∀ (l : List Firefly) (i : Nat) (f : Firefly),
      l.get? i = some f →
        (newGeneration m l).get? i =
          some (attractPass m f (l.drop (i + 1)))
  | [], i, f, h => by simp at h
  | g :: rest, 0, f, h => by
    simp only [List.get?] at h
    cases h
    simp [newGeneration]
  | g :: rest, i + 1, f, h => by
    simpa [newGeneration] using newGeneration_get? m rest i f h

/-! Per-index sub-seed characterization (claim C5). -/

theorem generateFireflies_rngSeed (bS : Nat → Nat) (pS : Nat → Int)
    (ev : List Int → Int) (dims : Nat) :
    ∀ (n bc pc i : Nat) (fly : Firefly),
      (generateFireflies bS pS ev dims bc pc n).get? i = some fly →
        fly.rngSeed = (List.range 16).map fun k => bS (bc + 16 * i + k)
  | 0, bc, pc, i, fly, h => by simp [generateFireflies] at h
  | n + 1, bc, pc, 0, fly, h => by
    simp only [generateFireflies, List.get?] at h
    cases h
    simp
  | n + 1, bc, pc, i + 1, fly, h => by
    simp only [generateFireflies, List.get?] at h
    have := generateFireflies_rngSeed bS pS ev dims n (bc + 16) (pc + dims) i fly h
    rw [this]
    have harg : ∀ k : Nat, bc + 16 + 16 * i + k = bc + 16 * (i + 1) + k := by
      intro k
      ring
    simp only [harg]

/-! Single-firefly swarms (claim C8). -/

theorem performIteration_single (m : Firefly → Firefly → Firefly)
    (best : Option PointAndValue) (f : Firefly) :
    performIteration m ⟨best, [f]⟩ =
      if betterThanMinimumOpt best f.objective_function_value then
        (⟨some ⟨f.position, f.objective_function_value⟩, [f]⟩, ⟨true⟩)
      else
        (⟨best, [f]⟩, ⟨false⟩) := by
  by_cases h : betterThanMinimumOpt best f.objective_function_value <;>
    simp [performIteration, iterLoop, attractPass, sortSwarm,
      List.insertionSort, h]

theorem performIteration_single_fix (m : Firefly → Firefly → Firefly)
    (pv : PointAndValue) (f : Firefly)
    (hle : pv.value ≤ f.objective_function_value) :
    performIteration m ⟨some pv, [f]⟩ = (⟨some pv, [f]⟩, ⟨false⟩) := by
  rw [performIteration_single]
  have : betterThanMinimumOpt (some pv) f.objective_function_value = false := by
    simp [betterThanMinimumOpt]
    omega
  simp [this]

theorem iterateSwarm_single_fireflies (m : Firefly → Firefly → Firefly) :
    ∀ (n : Nat) (best : Option PointAndValue) (f : Firefly),
      (iterateSwarm m ⟨best, [f]⟩ n).fireflies = [f]
  | 0, _, _ => rfl
  | n + 1, best, f => by
    rw [iterateSwarm, performIteration_single]
    by_cases h : betterThanMinimumOpt best f.objective_function_value <;>
      simp [h, iterateSwarm_single_fireflies m n]

theorem runLoop_single_calls (m : Firefly → Firefly → Firefly)
    (opts : FireflyOptions) (f : Firefly) (fuel : Nat) :
    (runLoop m opts fuel ⟨none, [f]⟩ 0).2 =
      min fuel (opts.stuck_run_iterations_count + 1) := by
  cases fuel with
  | zero => simp [runLoop]
  | succ k =>
    have hstep : performIteration m ⟨none, [f]⟩ =
        (⟨some ⟨f.position, f.objective_function_value⟩, [f]⟩, ⟨true⟩) := by
      rw [performIteration_single]
      simp [betterThanMinimumOpt]
    have hfix : performIteration m
        ⟨some ⟨f.position, f.objective_function_value⟩, [f]⟩ =
        (⟨some ⟨f.position, f.objective_function_value⟩, [f]⟩, ⟨false⟩) :=
      performIteration_single_fix m _ f (le_refl _)
    simp only [runLoop, hstep]
    by_cases h : opts.stuck_run_iterations_count ≤ 0
    · have h0 : opts.stuck_run_iterations_count = 0 := by omega
      have : (1 : Nat) = min (k + 1) (opts.stuck_run_iterations_count + 1) := by
        omega
      simpa [h] using this
    · have hrec := runLoop_fix_calls m opts
        ⟨some ⟨f.position, f.objective_function_value⟩, [f]⟩ hfix k 0
        (by omega)
      have : min k (opts.stuck_run_iterations_count - 0) + 1 =
          min (k + 1) (opts.stuck_run_iterations_count + 1) := by
        omega
      simpa [h, hrec] using this

/-! Concrete instances used to exercise the theorems on closed inputs. -/

/-- A concrete movement function (the theorems hold for every choice). -/
def exMove (f c : Firefly) : Firefly :=
  ⟨c.position, f.objective_function_value + c.objective_function_value,
    f.rngSeed⟩

/-- A concrete seed-byte stream. -/
def exByteStream (n : Nat) : Nat := n % 256

/-- A concrete in-bounds coordinate stream. -/
def exPosStream (n : Nat) : Int := (n : Int)

/-- A concrete objective oracle. -/
def exEval (p : List Int) : Int := p.sum

/-! The claims. -/

/-- C1: the best-known solution is monotonically non-increasing in value
across the run — `best_solution` is updated by `perform_iteration` only when
a newly computed firefly value strictly improves on it (or when no best
exists yet, per `is_better_than_minimum`), so over any sequence of
`perform_iteration` calls the stored best value never increases. -/
theorem claim_C1_best_value_monotone (m : Firefly → Firefly → Firefly)
    (s : FireflySwarm) (n : Nat) (b b' : PointAndValue)
    (hb : s.best_solution = some b)
    (hb' : (iterateSwarm m s n).best_solution = some b') :
    b'.value ≤ b.value := by
  obtain ⟨b'', hb'', hle⟩ := iterateSwarm_best_mono m n s b hb
  rw [hb'] at hb''
  exact (Option.some.inj hb'') ▸ hle

theorem claim_C1_witness :
    (FireflySwarm.mk (some ⟨[0], 5⟩) [⟨[1], 3, []⟩]).best_solution =
        some ⟨[0], 5⟩ ∧
      (iterateSwarm exMove ⟨some ⟨[0], 5⟩, [⟨[1], 3, []⟩]⟩ 2).best_solution =
        some ⟨[1], 3⟩ ∧
      (PointAndValue.mk [1] 3).value ≤ (PointAndValue.mk [0] 5).value :=
  ⟨rfl, by decide,
    claim_C1_best_value_monotone exMove ⟨some ⟨[0], 5⟩, [⟨[1], 3, []⟩]⟩ 2
      ⟨[0], 5⟩ ⟨[1], 3⟩ rfl (by decide)⟩

/-- C2: during `perform_iteration`, the working copy built for the firefly
at index `i` is the fold of the attraction rule over the suffix after `i`
of the original, pre-iteration snapshot (never over the partially built next
generation): `move_towards` is invoked exactly at those comparisons of the
fold in which the candidate is strictly brighter than the working copy's
current value at the time of comparison, so successive comparisons compound
movement from several brighter neighbours.  The third conjunct ties the
fold-built generation to the state produced by `perform_iteration`. -/
theorem claim_C2_attraction_scan (m : Firefly → Firefly → Firefly)
    (l : List Firefly) (i : Nat) (f : Firefly)
    (h : l.get? i = some f) :
    (newGeneration m l).length = l.length ∧
      (newGeneration m l).get? i =
        some (attractPass m f (l.drop (i + 1))) ∧
      ∀ s : FireflySwarm,
        (performIteration m s).1.fireflies =
          sortSwarm (newGeneration m s.fireflies) :=
  ⟨newGeneration_length m l, newGeneration_get? m l i f h,
    fun s => performIteration_fireflies m s⟩

theorem claim_C2_witness :
    ([⟨[0], 5, []⟩, ⟨[1], 1, []⟩] : List Firefly).get? 0 =
        some ⟨[0], 5, []⟩ ∧
      (newGeneration exMove [⟨[0], 5, []⟩, ⟨[1], 1, []⟩]).length = 2 ∧
      (newGeneration exMove [⟨[0], 5, []⟩, ⟨[1], 1, []⟩]).get? 0 =
        some (attractPass exMove ⟨[0], 5, []⟩
          ([⟨[0], 5, []⟩, ⟨[1], 1, []⟩].drop 1)) := by
  have h :=
    claim_C2_attraction_scan exMove [⟨[0], 5, []⟩, ⟨[1], 1, []⟩] 0
      ⟨[0], 5, []⟩ rfl
  exact ⟨rfl, h.1, h.2.1⟩

/-- C3: immediately after `FireflySwarm::initialize` and immediately after
every `perform_iteration`, the fireflies vector is sorted consistently by
objective value in the descending order of the `total_cmp` comparator —
largest values first, the brightest (lowest-value) firefly last, so the
suffix after any index holds only fireflies of no larger value. -/
theorem claim_C3_sorted_invariant (bS : Nat → Nat) (pS : Nat → Int)
    (ev : List Int → Int) (dims : Nat) (opts : FireflyOptions)
    (m : Firefly → Firefly → Firefly) :
    List.Sorted fireflyDescOrder (initSwarm bS pS ev dims opts).fireflies ∧
      ∀ s : FireflySwarm,
        List.Sorted fireflyDescOrder
          ((performIteration m s).1.fireflies) :=
  ⟨sortSwarm_sorted _, fun s => by
    rw [performIteration_fireflies]
    exact sortSwarm_sorted _⟩

/-- C4: the run driver makes at most `maximum_iterations` calls to
`perform_iteration`; the number of calls it makes is exactly what the
spec's stopping-policy state machine (`specStopCalls`: reset the stagnation
counter to 0 after an improving iteration, increment it otherwise, stop as
soon as it reaches `stuck_run_iterations_count` or the iteration budget is
exhausted) prescribes on the iteration-outcome flags; and the final state is
exactly the result of that many iterations — no further iteration is
performed after the stop. -/
theorem claim_C4_stopping_policy (bS : Nat → Nat) (pS : Nat → Int)
    (ev : List Int → Int) (dims : Nat)
    (m : Firefly → Firefly → Firefly) (opts : FireflyOptions) :
    (runLoop m opts opts.maximum_iterations
        (initSwarm bS pS ev dims opts) 0).2 ≤ opts.maximum_iterations ∧
      (runLoop m opts opts.maximum_iterations
          (initSwarm bS pS ev dims opts) 0).2 =
        specStopCalls opts.stuck_run_iterations_count
          (iterationFlags m (initSwarm bS pS ev dims opts)
            opts.maximum_iterations) 0 ∧
      (runLoop m opts opts.maximum_iterations
          (initSwarm bS pS ev dims opts) 0).1 =
        iterateSwarm m (initSwarm bS pS ev dims opts)
          (runLoop m opts opts.maximum_iterations
            (initSwarm bS pS ev dims opts) 0).2 :=
  ⟨runLoop_calls_le m opts _ _ _, runLoop_calls_eq_spec m opts _ _ _,
    runLoop_state_eq m opts _ _ _⟩

/-- C5: determinism — the optimizer's result is a function of the oracle,
the options, and the two seed-derived streams alone, so two runs with
identical inputs produce identical best (value, position); and the 16-byte
sub-seed handed to the agent constructed at index `i` is the fixed
deterministic function `subSeedBytes` of the top-level seed stream and the
index alone (bytes `16*i .. 16*i+15` of the stream). -/
theorem claim_C5_determinism_and_subseeds (bS bS' : Nat → Nat)
    (pS pS' : Nat → Int) (ev ev' : List Int → Int) (dims : Nat)
    (m m' : Firefly → Firefly → Firefly) (opts opts' : FireflyOptions)
    (i : Nat) (fly : Firefly)
    (hb : bS' = bS) (hp : pS' = pS) (he : ev' = ev) (hm : m' = m)
    (ho : opts' = opts)
    (hget : (generateFireflies bS pS ev dims 0 0 opts.swarm_size).get? i =
      some fly) :
    performFireflySwarmOptimization bS' pS' ev' dims m' opts' =
        performFireflySwarmOptimization bS pS ev dims m opts ∧
      fly.rngSeed = subSeedBytes bS i := by
  subst hb hp he hm ho
  refine ⟨rfl, ?_⟩
  have h := generateFireflies_rngSeed _ _ _ dims _ 0 0 i fly hget
  rw [h, subSeedBytes]
  simp

theorem claim_C5_witness :
    exByteStream = exByteStream ∧ exPosStream = exPosStream ∧
      exEval = exEval ∧ exMove = exMove ∧
      (FireflyOptions.mk 1 1 1) = (FireflyOptions.mk 1 1 1) ∧
      (generateFireflies exByteStream exPosStream exEval 0 0 0
          (FireflyOptions.mk 1 1 1).swarm_size).get? 0 =
        some ⟨[], 0, (List.range 16).map fun k => k % 256⟩ ∧
      (performFireflySwarmOptimization exByteStream exPosStream exEval 0
          exMove (FireflyOptions.mk 1 1 1) =
        performFireflySwarmOptimization exByteStream exPosStream exEval 0
          exMove (FireflyOptions.mk 1 1 1) ∧
        (Firefly.mk [] 0 ((List.range 16).map fun k => k % 256)).rngSeed =
          subSeedBytes exByteStream 0) :=
  ⟨rfl, rfl, rfl, rfl, rfl, by decide,
    claim_C5_determinism_and_subseeds exByteStream exByteStream exPosStream
      exPosStream exEval exEval 0 exMove exMove ⟨1, 1, 1⟩ ⟨1, 1, 1⟩ 0
      ⟨[], 0, (List.range 16).map fun k => k % 256⟩
      rfl rfl rfl rfl rfl (by decide)⟩

theorem asserts_from_init (bS : Nat → Nat) (pS : Nat → Int)
    (ev : List Int → Int) (dims : Nat)
    (m : Firefly → Firefly → Firefly) (opts : FireflyOptions) (n : Nat) :
    performIterationAsserts m opts
      (iterateSwarm m (initSwarm bS pS ev dims opts) n) := by
  have hl :
      (iterateSwarm m (initSwarm bS pS ev dims opts) n).fireflies.length =
        opts.swarm_size :=
    (iterateSwarm_length m _ n).trans (initSwarm_length bS pS ev dims opts)
  exact ⟨hl, by rw [newGeneration_length]; exact hl⟩

/-- C6: the constructor `FireflySwarm::initialize` creates exactly `swarm_size` fireflies,
and at every iteration boundary reachable from it the population size is
still `swarm_size` and both `assert_eq!` conditions of `perform_iteration`
(entry size and freshly built generation size) hold, so neither assertion
ever fails. -/
theorem claim_C6_size_invariant (bS : Nat → Nat) (pS : Nat → Int)
    (ev : List Int → Int) (dims : Nat)
    (m : Firefly → Firefly → Firefly) (opts : FireflyOptions) :
    (initSwarm bS pS ev dims opts).fireflies.length = opts.swarm_size ∧
      ∀ n : Nat,
        performIterationAsserts m opts
          (iterateSwarm m (initSwarm bS pS ev dims opts) n) :=
  ⟨initSwarm_length bS pS ev dims opts,
    fun n => asserts_from_init bS pS ev dims m opts n⟩

/-- C7: the function `perform_firefly_swarm_optimization` returns the run-invalid error
exactly when no best-known solution exists after the iteration loop; and for
every configuration with `swarm_size ≥ 1` and `maximum_iterations ≥ 1`
(encoded as successors) the run ends with a best solution and the function
returns `Ok` carrying its value and position — never the error, never a
sentinel. -/
theorem claim_C7_run_invalid_error (bS : Nat → Nat) (pS : Nat → Int)
    (ev : List Int → Int) (dims : Nat)
    (m : Firefly → Firefly → Firefly) (ns nm stuck : Nat) :
    (∀ opts' : FireflyOptions,
        performFireflySwarmOptimization bS pS ev dims m opts' =
            Except.error invalidRunMessage ↔
          (finalSwarmState bS pS ev dims m opts').best_solution = none) ∧
      ∃ b : PointAndValue,
        (finalSwarmState bS pS ev dims m
            ⟨ns + 1, nm + 1, stuck⟩).best_solution = some b ∧
          performFireflySwarmOptimization bS pS ev dims m
              ⟨ns + 1, nm + 1, stuck⟩ =
            Except.ok ⟨b.value, b.position⟩ := by
  constructor
  · intro opts'
    cases hb : (finalSwarmState bS pS ev dims m opts').best_solution with
    | none => simp [performFireflySwarmOptimization, hb]
    | some b => simp [performFireflySwarmOptimization, hb]
  · have hfin : finalSwarmState bS pS ev dims m ⟨ns + 1, nm + 1, stuck⟩ =
        iterateSwarm m (initSwarm bS pS ev dims ⟨ns + 1, nm + 1, stuck⟩)
          (runLoop m ⟨ns + 1, nm + 1, stuck⟩ (nm + 1)
            (initSwarm bS pS ev dims ⟨ns + 1, nm + 1, stuck⟩) 0).2 :=
      runLoop_state_eq m ⟨ns + 1, nm + 1, stuck⟩ (nm + 1) _ 0
    have hne : (initSwarm bS pS ev dims ⟨ns + 1, nm + 1, stuck⟩).fireflies ≠ [] := by
      have := initSwarm_length bS pS ev dims ⟨ns + 1, nm + 1, stuck⟩
      intro hnil
      rw [hnil] at this
      simp at this
    have hpos : 1 ≤ (runLoop m ⟨ns + 1, nm + 1, stuck⟩ (nm + 1)
        (initSwarm bS pS ev dims ⟨ns + 1, nm + 1, stuck⟩) 0).2 :=
      runLoop_calls_pos m _ _ _ _ (Nat.succ_le_succ (Nat.zero_le nm))
    have hsome :
        ((finalSwarmState bS pS ev dims m
          ⟨ns + 1, nm + 1, stuck⟩).best_solution).isSome = true := by
      rw [hfin]
      exact iterateSwarm_best_isSome_of_pos m _ _ hne hpos
    obtain ⟨b, hb⟩ := Option.isSome_iff_exists.mp hsome
    exact ⟨b, hb, by simp [performFireflySwarmOptimization, hb]⟩

theorem performIteration_flag_of_none (m : Firefly → Firefly → Firefly)
    (s : FireflySwarm) (hb : s.best_solution = none)
    (hf : s.fireflies ≠ []) :
    (performIteration m s).2.new_global_minimum = true := by
  obtain ⟨f, rest, hfr⟩ := List.exists_cons_of_ne_nil hf
  simp only [performIteration, hb, hfr, iterLoop]
  simp [betterThanMinimumOpt, iterLoop_flag_mono]

/-- C8: in every run with `swarm_size = 1`, the brighter-neighbour scan is
empty in every iteration (`newGeneration` maps a singleton swarm to itself),
so the single firefly never moves by attraction — the population is
unchanged at every iteration boundary — and the driver performs exactly
`min maximum_iterations (stuck_run_iterations_count + 1)` iterations: the
run ends via `maximum_iterations` when the stagnation bound does not bind,
and stagnation cuts it to `stuck_run_iterations_count + 1` iterations as
soon as `stuck_run_iterations_count < maximum_iterations`. -/
theorem claim_C8_single_firefly (bS : Nat → Nat) (pS : Nat → Int)
    (ev : List Int → Int) (dims : Nat)
    (m : Firefly → Firefly → Firefly) (maxIter stuck : Nat) :
    (∀ f : Firefly, newGeneration m [f] = [f]) ∧
      (∀ n : Nat,
        (iterateSwarm m (initSwarm bS pS ev dims ⟨1, maxIter, stuck⟩)
            n).fireflies =
          (initSwarm bS pS ev dims ⟨1, maxIter, stuck⟩).fireflies) ∧
      (runLoop m ⟨1, maxIter, stuck⟩ maxIter
          (initSwarm bS pS ev dims ⟨1, maxIter, stuck⟩) 0).2 =
        min maxIter (stuck + 1) := by
  obtain ⟨f, hf⟩ :=
    List.length_eq_one.mp (initSwarm_length bS pS ev dims ⟨1, maxIter, stuck⟩)
  have hs : initSwarm bS pS ev dims ⟨1, maxIter, stuck⟩ = ⟨none, [f]⟩ := by
    simp only [initSwarm] at hf ⊢
    rw [hf]
  refine ⟨fun g => rfl, ?_, ?_⟩
  · intro n
    rw [hs]
    exact iterateSwarm_single_fireflies m n none f
  · rw [hs]
    exact runLoop_single_calls m ⟨1, maxIter, stuck⟩ f maxIter

/-- C9: for `swarm_size = 0` the optimizer never hits a failing assertion
(both `assert_eq!` conditions hold at every iteration boundary, the
population staying empty) and, `best_solution` remaining `None` through
every iteration, it always returns the run-invalid error, whatever
`maximum_iterations` and `stuck_run_iterations_count` are. -/
theorem claim_C9_empty_swarm (bS : Nat → Nat) (pS : Nat → Int)
    (ev : List Int → Int) (dims : Nat)
    (m : Firefly → Firefly → Firefly) (maxIter stuck : Nat) :
    performFireflySwarmOptimization bS pS ev dims m ⟨0, maxIter, stuck⟩ =
        Except.error invalidRunMessage ∧
      ∀ n : Nat,
        performIterationAsserts m ⟨0, maxIter, stuck⟩
          (iterateSwarm m (initSwarm bS pS ev dims ⟨0, maxIter, stuck⟩) n) := by
  have hs : initSwarm bS pS ev dims ⟨0, maxIter, stuck⟩ =
      (⟨none, []⟩ : FireflySwarm) := rfl
  have hfix : performIteration m (⟨none, []⟩ : FireflySwarm) =
      ((⟨none, []⟩ : FireflySwarm), ⟨false⟩) := rfl
  constructor
  · have hfin : finalSwarmState bS pS ev dims m ⟨0, maxIter, stuck⟩ =
        (⟨none, []⟩ : FireflySwarm) := by
      rw [finalSwarmState, hs]
      exact runLoop_fix_state m ⟨0, maxIter, stuck⟩ _ hfix maxIter 0
    simp [performFireflySwarmOptimization, hfin]
  · exact fun n => asserts_from_init bS pS ev dims m ⟨0, maxIter, stuck⟩ n

/-- C10: from a freshly initialized swarm with `swarm_size ≥ 1` (encoded as
a successor), the first `perform_iteration` call always reports
`new_global_minimum = true`, whatever the oracle's values: `best_solution`
starts as `None`, and `is_better_than_minimum` accepts every value when no
best exists yet. -/
theorem claim_C10_first_iteration_flag (bS : Nat → Nat) (pS : Nat → Int)
    (ev : List Int → Int) (dims : Nat)
    (m : Firefly → Firefly → Firefly) (n maxIter stuck : Nat) :
    (performIteration m
        (initSwarm bS pS ev dims ⟨n + 1, maxIter, stuck⟩)).2.new_global_minimum =
      true := by
  apply performIteration_flag_of_none
  · rfl
  · have := initSwarm_length bS pS ev dims ⟨n + 1, maxIter, stuck⟩
    intro hnil
    rw [hnil] at this
    simp at this

end FireflyOpt
